import Mathlib

/-!
Verification of the mas-server format validator, query normalizer,
request pipeline and response sink against their specification.

The embedding models JavaScript runtime values as the inductive `JSValue`
(numbers at integer granularity plus a NaN marker, which is faithful for
every property below since the validator only inspects runtime kinds),
and translates the functions of `src/utils/validType.ts`,
`src/getApp/apiHandler.ts` and `src/utils/quickSend.ts` one by one.
Format descriptors are themselves JavaScript values: the constructor
functions `String`/`Number`/`Boolean`/`Object` are modelled as `JSValue.func`
carrying the constructor name, the optional-string sentinel is the string
`"?"` and the optional-number sentinel is the number `-1`, exactly as in
the source.

`validType` recurses through nested list fields, so it is defined through
a fuel parameter set to `jsSize` of the format; the lemma
`validTypeF_fuel_irrel` shows the fuel never matters once it dominates the
format size, and `validType_eq` recovers the natural recursive equation.
-/

/-- JavaScript number at integer granularity, with NaN. The validator and
pipeline never branch on a numeric value other than the sentinel `-1`
and truthiness, so this granularity is faithful for all properties here. -/
inductive JSNum where
  | nan : JSNum
  | int : Int → JSNum
deriving DecidableEq, Repr

/-- A JavaScript runtime value: primitives, arrays, plain objects
(association lists of own enumerable string keys, in insertion order,
keys unique), and functions (only the `name` property is ever read,
by `validBaseType`). -/
inductive JSValue where
  | undefined : JSValue
  | null : JSValue
  | bool : Bool → JSValue
  | num : JSNum → JSValue
  | str : String → JSValue
  | arr : List JSValue → JSValue
  | obj : List (String × JSValue) → JSValue
  | func : String → JSValue
deriving Repr

mutual

/-- Structural size of a value, used as recursion fuel for the validator
(the validator recursion strictly descends through the format value). -/
def jsSize : JSValue → Nat
  | .undefined => 1
  | .null => 1
  | .bool _ => 1
  | .num _ => 1
  | .str _ => 1
  | .func _ => 1
  | .arr xs => 1 + jsSizeL xs
  | .obj fs => 1 + jsSizeF fs

/-- Size of a list of values. -/
def jsSizeL : List JSValue → Nat
  | [] => 1
  | x :: rest => 1 + jsSize x + jsSizeL rest

/-- Size of an association list of fields. -/
def jsSizeF : List (String × JSValue) → Nat
  | [] => 1
  | (_, v) :: rest => 1 + jsSize v + jsSizeF rest

end

/-- `getType` from validType.ts: the lowercase `Object.prototype.toString`
tag of a value. -/
def getType : JSValue → String
  | .undefined => "undefined"
  | .null => "null"
  | .bool _ => "boolean"
  | .num _ => "number"
  | .str _ => "string"
  | .arr _ => "array"
  | .obj _ => "object"
  | .func _ => "function"

/-- `value === null || value === undefined` in the source. -/
def isNullish : JSValue → Bool
  | .undefined => true
  | .null => true
  | _ => false

/-- JavaScript truthiness, negated: `!v` is true exactly on
`undefined`, `null`, `false`, `0`, `NaN` and the empty string. -/
def jsFalsy : JSValue → Bool
  | .undefined => true
  | .null => true
  | .bool b => !b
  | .num .nan => true
  | .num (.int n) => n == 0
  | .str s => s == ""
  | _ => false

/-- `obj[key]` on a plain object: the value of the first matching key,
`undefined` when the key is absent. -/
def jsLookup (fields : List (String × JSValue)) (key : String) : JSValue :=
  match fields.find? (fun kv => kv.1 == key) with
  | some kv => kv.2
  | none => .undefined

/-- `a[0]` on a JavaScript array value (`undefined` when out of range). -/
def jsHead : JSValue → JSValue
  | .arr (x :: _) => x
  | _ => .undefined

/-- `isOptionalDescriptor` from validType.ts: the format is the
optional-string sentinel `'?'` or the optional-number sentinel `-1`. -/
def isOptionalDescriptor : JSValue → Bool
  | .str "?" => true
  | .num (.int n) => n == -1
  | _ => false

/-- `validOptional` from validType.ts: absence passes, otherwise the
runtime kind must match the scalar kind of the sentinel. -/
def validOptional (value format : JSValue) : Bool :=
  if isNullish value then true
  else
    match format with
    | .str "?" => getType value == "string"
    | _ => getType value == "number"

/-- `isOptionalArrayFieldFormat` from validType.ts: a non-empty array
whose first element is an optional-scalar sentinel. -/
def isOptionalArrayFieldFormat : JSValue → Bool
  | .arr (e :: _) => isOptionalDescriptor e
  | _ => false

/-- `validOptionalArrayField` from validType.ts: absence passes; a present
value must be a non-empty array whose every element has the scalar kind
of the sentinel `element`. -/
def validOptionalArrayField (value element : JSValue) : Bool :=
  if isNullish value then true
  else
    match value with
    | .arr [] => false
    | .arr items =>
        items.all (fun item =>
          match element with
          | .str "?" => getType item == "string"
          | _ => getType item == "number")
    | _ => false

/-- ASCII lowercase of a character (the inputs of the model, constructor
names and header keys, are ASCII, where this agrees with the JavaScript
`toLowerCase`). -/
def lcChar (c : Char) : Char :=
  if 'A' ≤ c ∧ c ≤ 'Z' then Char.ofNat (c.toNat + 32) else c

/-- ASCII `toLowerCase`. -/
def strLower (s : String) : String := ⟨s.data.map lcChar⟩

/-- ASCII uppercase of a character. -/
def ucChar (c : Char) : Char :=
  if 'a' ≤ c ∧ c ≤ 'z' then Char.ofNat (c.toNat - 32) else c

/-- ASCII `toUpperCase`. -/
def strUpper (s : String) : String := ⟨s.data.map ucChar⟩

/-- `validBaseType` from validType.ts: the runtime kind of the value
equals the lowercased constructor name. -/
def validBaseType (value : JSValue) (name : String) : Bool :=
  getType value == strLower name

/-- The fatal configuration message thrown by `validArray` on an empty
(or falsy-template) array format. -/
def emptyArrayFormatMsg : String :=
  "非法的校验格式：数组格式不能为空（示例：[String] / [\x7b...\x7d]）"

/-- The element loop of `validArray`: short-circuits on the first element
whose check is false or throws, exactly like the `for` loop in the source. -/
def allItemsM (check : JSValue → Except String Bool) :
    List JSValue → Except String Bool
  | [] => .ok true
  | x :: rest =>
    match check x with
    | .ok true => allItemsM check rest
    | .ok false => .ok false
    | .error e => .error e

/-- `validArray` from validType.ts, parameterised by the recursive
validator `recv` for elements: a non-array or empty-array value fails;
then an empty (or falsy-first-element) format throws; otherwise each
element is checked against the first template element. -/
def validArrayF (recv : JSValue → JSValue → Bool → Except String Bool)
    (value : JSValue) (format : List JSValue) (strict : Bool) :
    Except String Bool :=
  match value with
  | .arr [] => .ok false
  | .arr items =>
    match format with
    | [] => .error emptyArrayFormatMsg
    | e :: _ =>
      if jsFalsy e then .error emptyArrayFormatMsg
      else allItemsM (fun item => recv item e strict) items
  | _ => .ok false

/-- The body of one iteration of the key loop of `validObject`
(`continue` becomes `.ok true`): a falsy child format fails the object;
an optional-array-field format is checked with `validOptionalArrayField`;
an optional sentinel with `validOptional`; otherwise absence fails and the
child is validated recursively with the same strict flag. -/
def fieldCheck (recv : JSValue → JSValue → Bool → Except String Bool)
    (objFields : List (String × JSValue)) (strict : Bool)
    (key : String) (childFormat : JSValue) : Except String Bool :=
  let v := jsLookup objFields key
  if jsFalsy childFormat then .ok false
  else if isOptionalArrayFieldFormat childFormat then
    .ok (validOptionalArrayField v (jsHead childFormat))
  else if isOptionalDescriptor childFormat then
    .ok (validOptional v childFormat)
  else if isNullish v then .ok false
  else recv v childFormat strict

/-- The key loop of `validObject`, short-circuiting like the source. -/
def objFieldsM (recv : JSValue → JSValue → Bool → Except String Bool)
    (objFields : List (String × JSValue)) (strict : Bool) :
    List (String × JSValue) → Except String Bool
  | [] => .ok true
  | (key, childFormat) :: rest =>
    match fieldCheck recv objFields strict key childFormat with
    | .ok true => objFieldsM recv objFields strict rest
    | r => r

/-- `validObject` from validType.ts, parameterised by the recursive
validator: the value must have runtime kind `object`; in strict mode every
key of the value must be declared in the format; every declared key is
then checked by `fieldCheck`. -/
def validObjectF (recv : JSValue → JSValue → Bool → Except String Bool)
    (value : JSValue) (format : List (String × JSValue)) (strict : Bool) :
    Except String Bool :=
  match value with
  | .obj objFields =>
    if strict && !(objFields.all (fun kv => format.any (fun f => f.1 == kv.1)))
    then .ok false
    else objFieldsM recv objFields strict format
  | _ => .ok false

/-- Fueled form of `validType` from validType.ts. The fuel only bounds the
recursion depth through the format; `validTypeF_fuel_irrel` shows any fuel
at least `sizeOf format` gives the same result. -/
def validTypeF : Nat → JSValue → JSValue → Bool → Except String Bool
  | 0, _, _, _ => .ok false
  | fuel + 1, value, format, strict =>
    if isOptionalDescriptor format then .ok (validOptional value format)
    else if isNullish value then .ok false
    else
      match format with
      | .func n => .ok (validBaseType value n)
      | .arr xs => validArrayF (validTypeF fuel) value xs strict
      | .obj fields => validObjectF (validTypeF fuel) value fields strict
      | _ => .ok false

/-- `validType` from validType.ts: the exported validator.
`Except.error` models the thrown fatal configuration error. -/
def validType (value format : JSValue) (strict : Bool) : Except String Bool :=
  validTypeF (jsSize format) value format strict

/-- `validArray` with the recursive knot tied (the form the source uses). -/
def validArray (value : JSValue) (format : List JSValue) (strict : Bool) :
    Except String Bool :=
  validArrayF (fun v f s => validType v f s) value format strict

/-- `validObject` with the recursive knot tied. -/
def validObject (value : JSValue) (format : List (String × JSValue))
    (strict : Bool) : Except String Bool :=
  validObjectF (fun v f s => validType v f s) value format strict

/-- `normalizeGetQuery` key loop from apiHandler.ts: nullish values are
skipped, string values are copied through, anything else fails the whole
normalization. -/
def normalizeGetQueryEntries :
    List (String × JSValue) → Option (List (String × String))
  | [] => some []
  | (k, v) :: rest =>
    match v with
    | .undefined => normalizeGetQueryEntries rest
    | .null => normalizeGetQueryEntries rest
    | .str s => (normalizeGetQueryEntries rest).map (fun out => (k, s) :: out)
    | _ => none

/-- `normalizeGetQuery` from apiHandler.ts: fails unless the query is a
non-array object; then normalizes entry by entry. -/
def normalizeGetQuery : JSValue → Option (List (String × String))
  | .obj entries => normalizeGetQueryEntries entries
  | _ => none

/-- The per-field test of `isGetOnlyStringFormat`:
`v === String || v === the question-mark sentinel` (the two cases have
distinct constructors, so the ordered disjunction of the source
collapses to this match). -/
def isGetAllowedValue : JSValue → Bool
  | .func n => n == "String"
  | .str t => t == "?"
  | _ => false

/-- `isGetOnlyStringFormat` from apiHandler.ts: the format must be a
non-array object whose every value is the `String` constructor or the
optional-string sentinel. -/
def isGetOnlyStringFormat : JSValue → Bool
  | .obj fields => fields.all (fun kv => isGetAllowedValue kv.2)
  | _ => false

/-- JavaScript `Number(string)` at integer granularity: the empty or
blank string coerces to 0, an integer numeral to its value, anything else
to NaN. The runtime kind of the result is always `number`, which is the
only fact about the numeric value the pipeline ever uses. -/
def jsStringToNumber (s : String) : JSNum :=
  let t := s.trim
  if t = "" then .int 0
  else
    match t.toInt? with
    | some n => .int n
    | none => .nan

/-- JavaScript `Number(value)` on the values the header check can see
(the header value has already been unwrapped from a possible array, and
express header values are strings, so the array and object cases are
unreachable there). -/
def jsToNumber : JSValue → JSNum
  | .num n => n
  | .str s => jsStringToNumber s
  | .bool b => .int (if b then 1 else 0)
  | .null => .int 0
  | .undefined => .nan
  | .arr _ => .nan
  | .obj _ => .nan
  | .func _ => .nan

/-- The minimal header coercion of apiHandler.ts lines 143 to 146:
a `Number` descriptor coerces with `Number(value)`, a `Boolean`
descriptor accepts exactly the strings `true`, `1` and `yes`, every
other descriptor passes the raw value through. -/
def coerceHeader (value format : JSValue) : JSValue :=
  match format with
  | .func "Number" => .num (jsToNumber value)
  | .func "Boolean" =>
    .bool (match value with
      | .str s => s == "true" || s == "1" || s == "yes"
      | _ => false)
  | _ => value

/-- JavaScript `String(value)` with the given recursion fuel (arrays
join their elements with commas). -/
def jsStringF : Nat → JSValue → String
  | 0, _ => ""
  | fuel + 1, v =>
    match v with
    | .undefined => "undefined"
    | .null => "null"
    | .bool b => if b then "true" else "false"
    | .num .nan => "NaN"
    | .num (.int n) => toString n
    | .str s => s
    | .arr xs => String.intercalate "," (xs.map (jsStringF fuel))
    | .obj _ => "[object Object]"
    | .func n => "function " ++ n

/-- JavaScript `String(value)`. -/
def jsString (v : JSValue) : String := jsStringF (jsSize v) v

/-- Does the second character list start with the first one. -/
def charsHeadMatch : List Char → List Char → Bool
  | [], _ => true
  | _ :: _, [] => false
  | a :: as, b :: bs => a == b && charsHeadMatch as bs

/-- Does the needle occur in the haystack at some position. -/
def charsIncludes (sub : List Char) : List Char → Bool
  | [] => charsHeadMatch sub []
  | c :: rest => charsHeadMatch sub (c :: rest) || charsIncludes sub rest

/-- JavaScript `haystack.includes(needle)` on strings. -/
def strIncludes (s sub : String) : Bool :=
  charsIncludes sub.data s.data

/-- JSON string quoting for `JSON.stringify` (the common escapes). -/
def escapeJsonChar (c : Char) : String :=
  if c = '"' then "\\\""
  else if c = '\\' then "\\\\"
  else if c = '\n' then "\\n"
  else String.singleton c

/-- Quoted JSON string literal. -/
def jsonQuote (s : String) : String :=
  "\"" ++ String.join (s.data.map escapeJsonChar) ++ "\""

/-- `JSON.stringify` with the given recursion fuel: `undefined` and
functions serialize to nothing (`none`), NaN to `null`, array holes to
`null`, object entries with unserializable values are dropped. -/
def jsStringifyF : Nat → JSValue → Option String
  | 0, _ => none
  | fuel + 1, v =>
    match v with
    | .undefined => none
    | .func _ => none
    | .null => some "null"
    | .bool b => some (if b then "true" else "false")
    | .num .nan => some "null"
    | .num (.int n) => some (toString n)
    | .str s => some (jsonQuote s)
    | .arr xs =>
      some ("[" ++ String.intercalate ","
        (xs.map (fun x => (jsStringifyF fuel x).getD "null")) ++ "]")
    | .obj fields =>
      some ("\x7b" ++ String.intercalate ","
        (fields.filterMap (fun kv =>
          (jsStringifyF fuel kv.2).map
            (fun sv => jsonQuote kv.1 ++ ":" ++ sv))) ++ "\x7d")

/-- `JSON.stringify`. -/
def jsStringify (v : JSValue) : Option String := jsStringifyF (jsSize v) v

/-- Property access `v?.[k]` (undefined on anything but an object). -/
def getField (v : JSValue) (k : String) : JSValue :=
  match v with
  | .obj fields => jsLookup fields k
  | _ => .undefined

/-- The response sent by the `return` method of quickSend.ts: the `code`
argument becomes the HTTP status, the body is the object literal
`\x7bmsg, status, data\x7d`. -/
structure SentResponse where
  httpStatus : Nat
  body : JSValue
deriving Repr

/-- `resExt.return` from quickSend.ts (synchronous model: the awaited
promise case never arises for already-computed data): nullish data forces
status 0; non-string data is JSON-serialized; the body carries `msg`,
`status` normalized to 0 or 1, and `data` (null when the serialization
produced nothing). -/
def quickSendReturn (data : JSValue) (status code : Nat) (msg : String) :
    SentResponse :=
  let status := if isNullish data then 0 else status
  let dataOut : Option String :=
    match data with
    | .str s => some s
    | _ => jsStringify data
  { httpStatus := code
  , body := .obj
      [ ("msg", .str msg)
      , ("status", .num (.int (if status != 0 then 1 else 0)))
      , ("data", match dataOut with | some s => .str s | none => .null) ] }

/-- `resExt.reply` from quickSend.ts: `status` defaults to the truthiness
of `data`, `code` to 200, `msg` to the empty string; then delegates to
`return`. -/
def quickSendReply (data : JSValue) (status code : Option Nat)
    (msg : Option String) : SentResponse :=
  let finalStatus :=
    match status with
    | some s => s
    | none => if jsFalsy data then 0 else 1
  quickSendReturn data finalStatus (code.getD 200) (msg.getD "")

/-- Endpoint configuration (the runtime-relevant fields of `MasConfig`
from type.ts; absent optional fields are `none`). -/
structure MasConfig where
  methods : Option String
  contentType : Option String
  header : Option (List (String × JSValue))
  token : Bool
  permission : Option (List String)
  requestFormat : Option JSValue
  strict : Bool

/-- A loaded API module: its optional config and whether it exports a
handler (the handler body itself is opaque to the pipeline). -/
structure ApiModule where
  config : Option MasConfig
  handler : Bool

/-- The parts of an express request the pipeline reads. Header keys are
lowercased by express at parse time. -/
structure MasRequest where
  method : String
  headers : List (String × JSValue)
  query : JSValue
  body : JSValue

/-- Result of the external token collaborator `validToken`. -/
structure TokenResult where
  status : Nat
  msg : String

/-- How one request ends in the pipeline: an early `res.reply` call, the
handler being invoked, or a thrown error forwarded to `next`. -/
inductive PipelineResult where
  | reply (data : JSValue) (status : Nat) (code : Nat) (msg : String)
  | handlerRun
  | nextError (err : String)
deriving Repr

/-- Message for a module without a handler export. -/
def msgMissingHandler (filePath : String) : String :=
  "API 模块缺少导出 handler：" ++ filePath

/-- Message for a disallowed method. -/
def msg405 : String := "Method Not Allowed"

/-- Message for a content-type mismatch. -/
def msgContentType : String := "Content-Type 不匹配"

/-- Message for a missing header. -/
def msgMissingHeader (key : String) : String := "缺少 Header：" ++ key

/-- Message for a header of the wrong type. -/
def msgHeaderType (key : String) : String := "Header 类型错误：" ++ key

/-- Message for a GET endpoint whose format breaks the flat-string rule. -/
def msgGetConfig : String :=
  "接口配置错误：GET 的 requestFormat 仅支持扁平的 String/_String（不支持 Number/数组/嵌套对象）"

/-- Message for a GET query that normalization rejected. -/
def msgGetQuery : String :=
  "GET 请求参数仅支持 string 类型（不支持数组/对象/嵌套结构）"

/-- Message for a request payload failing validation. -/
def msgParamFormat : String := "请求参数格式错误"

/-- `isGetRequest` from apiHandler.ts. -/
def isGetRequest (req : MasRequest) : Bool := strUpper req.method == "GET"

/-- The header validation loop of `createApiHandler` (lines 132 to 156):
for each configured header, look the key up lowercased, unwrap a
string-array to its first element, reject a missing header, coerce for
`Number`/`Boolean`, validate non-strictly, reject on failure. Returns
`none` when every header passes. -/
def checkHeaders (headers : List (String × JSValue)) :
    List (String × JSValue) → Option PipelineResult
  | [] => none
  | (key, format) :: rest =>
    let raw := jsLookup headers (strLower key)
    let value : JSValue :=
      match raw with
      | .arr (x :: _) => x
      | .arr [] => .undefined
      | v => v
    if isNullish value then some (.reply .null 0 400 (msgMissingHeader key))
    else
      match validType (coerceHeader value format) format false with
      | .error e => some (.nextError e)
      | .ok true => checkHeaders headers rest
      | .ok false => some (.reply .null 0 400 (msgHeaderType key))

/-- The content-type step of `createApiHandler` (lines 118 to 129): only
checked when a non-empty content type is configured and the request
plausibly carries a body (non-GET method and a content-length header);
then the content-type header, stringified, must contain the configured
substring. -/
def contentTypeCheck (cct : Option String) (req : MasRequest) :
    Option PipelineResult :=
  match cct with
  | some ct =>
    if ct == "" then none
    else
      let hasBody := strUpper req.method != "GET"
        && !(isNullish (jsLookup req.headers "content-length"))
      if hasBody then
        let raw := jsLookup req.headers "content-type"
        let ctv := if isNullish raw then JSValue.str "" else raw
        if strIncludes (jsString ctv) ct then none
        else some (.reply .null 0 400 msgContentType)
      else none
  | none => none

/-- The token step of `createApiHandler` (lines 158 to 173): only when
the global token switch and the endpoint token flag are both on; the
token is taken from header, then query, then body, and handed to the
external collaborator `vt` with the endpoint permissions. -/
def tokenCheck (vt : JSValue → List String → String → TokenResult)
    (tokenOpen : Bool) (tokenHeaderParams tokenPwd : String)
    (cfg : Option MasConfig) (req : MasRequest) : Option PipelineResult :=
  if tokenOpen && (cfg.map (fun c => c.token)).getD false then
    let tokenKey := tokenHeaderParams
    let token :=
      let h := jsLookup req.headers (strLower tokenKey)
      if isNullish h then
        let q := getField req.query tokenKey
        if isNullish q then getField req.body tokenKey else q
      else h
    let result := vt token ((cfg.bind (fun c => c.permission)).getD []) tokenPwd
    if result.status == 0 then some (.reply .null 0 401 result.msg)
    else none
  else none

/-- The request-format step of `createApiHandler` (lines 175 to 213):
skipped when no (truthy) format is configured; a GET request first needs
the flat-string format shape, then its normalized query must validate;
any other request validates its body; a thrown validator error escapes
to the catch. -/
def formatCheck (fmtOpt : Option JSValue) (strict : Bool)
    (req : MasRequest) : PipelineResult :=
  match fmtOpt with
  | some fmt =>
    if jsFalsy fmt then .handlerRun
    else if isGetRequest req then
      if !isGetOnlyStringFormat fmt then .reply .null 0 500 msgGetConfig
      else
        match normalizeGetQuery req.query with
        | none => .reply .null 0 400 msgGetQuery
        | some m =>
          match validType (.obj (m.map (fun kv => (kv.1, JSValue.str kv.2))))
              fmt strict with
          | .error e => .nextError e
          | .ok true => .handlerRun
          | .ok false => .reply .null 0 400 msgParamFormat
    else
      match validType req.body fmt strict with
      | .error e => .nextError e
      | .ok true => .handlerRun
      | .ok false => .reply .null 0 400 msgParamFormat
  | none => .handlerRun

/-- `createApiHandler` from apiHandler.ts, as a function from the request
to how it ends: missing handler, then method check, then the
content-type, header, token and request-format steps in source order.
The token collaborator `vt` is a parameter (it lives outside the
validator core); a thrown validator error becomes
`PipelineResult.nextError` through the try/catch of the source. -/
def createApiHandler (vt : JSValue → List String → String → TokenResult)
    (filePath : String) (mod : ApiModule)
    (tokenOpen : Bool) (tokenHeaderParams tokenPwd : String)
    (req : MasRequest) : PipelineResult :=
  if !mod.handler then .reply .null 0 500 (msgMissingHandler filePath)
  else
    let cfg := mod.config
    let methods := (cfg.bind (fun c => c.methods)).getD "all"
    if methods != "all" && strLower req.method != methods then
      .reply .null 0 405 msg405
    else
      match contentTypeCheck (cfg.bind (fun c => c.contentType)) req with
      | some r => r
      | none =>
        match (match cfg.bind (fun c => c.header) with
               | some entries => checkHeaders req.headers entries
               | none => none) with
        | some r => r
        | none =>
          match tokenCheck vt tokenOpen tokenHeaderParams tokenPwd cfg req with
          | some r => r
          | none =>
            formatCheck (cfg.bind (fun c => c.requestFormat))
              ((cfg.map (fun c => c.strict)).getD false) req

deriving instance DecidableEq for Except

theorem JSValue.one_le_jsSize : (v : JSValue) → 1 ≤ jsSize v := by
  intro v; cases v <;> simp [jsSize]

theorem jsSize_lt_of_mem_list {x : JSValue} {xs : List JSValue}
    (h : x ∈ xs) : jsSize x < jsSizeL xs := by
  induction xs with
  | nil => cases h
  | cons y rest ih =>
    rcases List.mem_cons.mp h with rfl | hmem
    · simp only [jsSizeL]; omega
    · have := ih hmem
      simp only [jsSizeL]; omega

theorem jsSize_lt_of_mem_arr {x : JSValue} {xs : List JSValue}
    (h : x ∈ xs) : jsSize x < jsSize (JSValue.arr xs) := by
  have := jsSize_lt_of_mem_list h
  simp only [jsSize]; omega

theorem jsSize_lt_of_mem_fields {kv : String × JSValue}
    {fields : List (String × JSValue)} (h : kv ∈ fields) :
    jsSize kv.2 < jsSizeF fields := by
  induction fields with
  | nil => cases h
  | cons y rest ih =>
    rcases List.mem_cons.mp h with rfl | hmem
    · obtain ⟨k, v⟩ := kv
      simp only [jsSizeF]; omega
    · have := ih hmem
      obtain ⟨k, v⟩ := y
      simp only [jsSizeF]; omega

theorem jsSize_lt_of_mem_obj {kv : String × JSValue}
    {fields : List (String × JSValue)} (h : kv ∈ fields) :
    jsSize kv.2 < jsSize (JSValue.obj fields) := by
  have := jsSize_lt_of_mem_fields h
  simp only [jsSize]; omega

theorem allItemsM_congr {c₁ c₂ : JSValue → Except String Bool}
    (items : List JSValue) (h : ∀ x ∈ items, c₁ x = c₂ x) :
    allItemsM c₁ items = allItemsM c₂ items := by
  induction items with
  | nil => rfl
  | cons x rest ih =>
    simp only [allItemsM, h x (List.mem_cons_self x rest)]
    cases c₂ x with
    | ok b =>
      cases b
      · rfl
      · exact ih (fun y hy => h y (List.mem_cons_of_mem x hy))
    | error e => rfl

theorem validArrayF_congr {r₁ r₂ : JSValue → JSValue → Bool → Except String Bool}
    (value : JSValue) (format : List JSValue) (strict : Bool)
    (h : ∀ x f s, f ∈ format → r₁ x f s = r₂ x f s) :
    validArrayF r₁ value format strict = validArrayF r₂ value format strict := by
  cases value with
  | arr items =>
    cases items with
    | nil => rfl
    | cons x rest =>
      cases format with
      | nil => rfl
      | cons e efs =>
        simp only [validArrayF]
        by_cases hf : jsFalsy e
        · simp [hf]
        · simp only [hf, if_false]
          exact allItemsM_congr _
            (fun y _ => h y e strict (List.mem_cons_self e efs))
  | undefined => rfl
  | null => rfl
  | bool b => rfl
  | num n => rfl
  | str s => rfl
  | obj o => rfl
  | func f => rfl

theorem fieldCheck_congr {r₁ r₂ : JSValue → JSValue → Bool → Except String Bool}
    (objFields : List (String × JSValue)) (strict : Bool)
    (key : String) (childFormat : JSValue)
    (h : ∀ x s, r₁ x childFormat s = r₂ x childFormat s) :
    fieldCheck r₁ objFields strict key childFormat
      = fieldCheck r₂ objFields strict key childFormat := by
  simp only [fieldCheck]
  split
  · rfl
  · split
    · rfl
    · split
      · rfl
      · split
        · rfl
        · exact h _ _

theorem objFieldsM_congr {r₁ r₂ : JSValue → JSValue → Bool → Except String Bool}
    (objFields : List (String × JSValue)) (strict : Bool)
    (format : List (String × JSValue))
    (h : ∀ kv ∈ format, ∀ x s, r₁ x kv.2 s = r₂ x kv.2 s) :
    objFieldsM r₁ objFields strict format
      = objFieldsM r₂ objFields strict format := by
  induction format with
  | nil => rfl
  | cons kv rest ih =>
    obtain ⟨key, childFormat⟩ := kv
    simp only [objFieldsM]
    rw [fieldCheck_congr objFields strict key childFormat
      (h ⟨key, childFormat⟩ (List.mem_cons_self _ _))]
    cases fieldCheck r₂ objFields strict key childFormat with
    | ok b =>
      cases b
      · rfl
      · exact ih (fun kv hkv => h kv (List.mem_cons_of_mem _ hkv))
    | error e => rfl

theorem validObjectF_congr {r₁ r₂ : JSValue → JSValue → Bool → Except String Bool}
    (value : JSValue) (format : List (String × JSValue)) (strict : Bool)
    (h : ∀ kv ∈ format, ∀ x s, r₁ x kv.2 s = r₂ x kv.2 s) :
    validObjectF r₁ value format strict = validObjectF r₂ value format strict := by
  cases value with
  | obj objFields =>
    simp only [validObjectF]
    split
    · rfl
    · exact objFieldsM_congr objFields strict format h
  | undefined => rfl
  | null => rfl
  | bool b => rfl
  | num n => rfl
  | str s => rfl
  | arr a => rfl
  | func f => rfl

theorem validTypeF_fuel_irrel :
    ∀ (fuel fuel' : Nat) (format value : JSValue) (strict : Bool),
      jsSize format ≤ fuel → jsSize format ≤ fuel' →
      validTypeF fuel value format strict = validTypeF fuel' value format strict := by
  intro fuel
  induction fuel with
  | zero =>
    intro fuel' format value strict h _
    have := JSValue.one_le_jsSize format
    omega
  | succ k ih =>
    intro fuel' format value strict h h'
    cases fuel' with
    | zero =>
      have := JSValue.one_le_jsSize format
      omega
    | succ k' =>
      simp only [validTypeF]
      split
      · rfl
      · split
        · rfl
        · cases format with
          | func n => rfl
          | arr xs =>
            apply validArrayF_congr
            intro x f s hf
            have hlt := jsSize_lt_of_mem_arr hf
            have hsz : jsSize (JSValue.arr xs) = 1 + jsSizeL xs := by
              simp [jsSize]
            exact ih k' f x s (by omega) (by omega)
          | obj fields =>
            apply validObjectF_congr
            intro kv hkv x s
            have hlt := jsSize_lt_of_mem_obj hkv
            exact ih k' kv.2 x s (by omega) (by omega)
          | undefined => rfl
          | null => rfl
          | bool b => rfl
          | num n => rfl
          | str s => rfl

/-- The natural recursive equation of `validType`, with the source
dispatch order: optional sentinel, nullish value, then constructor /
array / object format, anything else failing closed. -/
theorem validType_eq (value format : JSValue) (strict : Bool) :
    validType value format strict =
      if isOptionalDescriptor format then .ok (validOptional value format)
      else if isNullish value then .ok false
      else
        match format with
        | .func n => .ok (validBaseType value n)
        | .arr xs => validArray value xs strict
        | .obj fields => validObject value fields strict
        | _ => .ok false := by
  have h1 := JSValue.one_le_jsSize format
  obtain ⟨k, hk⟩ : ∃ k, jsSize format = k + 1 := ⟨jsSize format - 1, by omega⟩
  rw [validType, hk]
  simp only [validTypeF]
  split
  · rfl
  · split
    · rfl
    · cases format with
      | func n => rfl
      | arr xs =>
        show validArrayF (validTypeF k) value xs strict = validArray value xs strict
        apply validArrayF_congr
        intro x f s hf
        have hlt := jsSize_lt_of_mem_arr hf
        exact validTypeF_fuel_irrel k (jsSize f) f x s (by omega)
          (Nat.le_refl _)
      | obj fields =>
        show validObjectF (validTypeF k) value fields strict
          = validObject value fields strict
        apply validObjectF_congr
        intro kv hkv x s
        have hlt := jsSize_lt_of_mem_obj hkv
        exact validTypeF_fuel_irrel k (jsSize kv.2) kv.2 x s (by omega)
          (Nat.le_refl _)
      | undefined => rfl
      | null => rfl
      | bool b => rfl
      | num n => rfl
      | str s => rfl

/-- The element loop passes exactly when every element passes. -/
theorem allItemsM_eq_ok_true_iff (check : JSValue → Except String Bool)
    (items : List JSValue) :
    allItemsM check items = .ok true ↔ ∀ x ∈ items, check x = .ok true := by
  induction items with
  | nil => simp [allItemsM]
  | cons x rest ih =>
    simp only [allItemsM]
    cases hcx : check x with
    | ok b =>
      cases b with
      | false =>
        constructor
        · intro h; cases h
        · intro h
          have := h x (List.mem_cons_self x rest)
          rw [hcx] at this; cases this
      | true =>
        rw [ih]
        constructor
        · intro h y hy
          rcases List.mem_cons.mp hy with rfl | hy'
          · exact hcx
          · exact h y hy'
        · intro h y hy
          exact h y (List.mem_cons_of_mem x hy)
    | error e =>
      constructor
      · intro h; cases h
      · intro h
        have := h x (List.mem_cons_self x rest)
        rw [hcx] at this; cases this

/-- The field loop passes exactly when every declared field passes. -/
theorem objFieldsM_eq_ok_true_iff
    (recv : JSValue → JSValue → Bool → Except String Bool)
    (objFields : List (String × JSValue)) (strict : Bool)
    (format : List (String × JSValue)) :
    objFieldsM recv objFields strict format = .ok true
      ↔ ∀ kv ∈ format,
          fieldCheck recv objFields strict kv.1 kv.2 = .ok true := by
  induction format with
  | nil => simp [objFieldsM]
  | cons kv rest ih =>
    obtain ⟨key, childFormat⟩ := kv
    simp only [objFieldsM]
    cases hfc : fieldCheck recv objFields strict key childFormat with
    | ok b =>
      cases b with
      | false =>
        constructor
        · intro h; cases h
        · intro h
          have := h ⟨key, childFormat⟩ (List.mem_cons_self _ _)
          rw [hfc] at this; cases this
      | true =>
        rw [ih]
        constructor
        · intro h y hy
          rcases List.mem_cons.mp hy with rfl | hy'
          · exact hfc
          · exact h y hy'
        · intro h y hy
          exact h y (List.mem_cons_of_mem _ hy)
    | error e =>
      constructor
      · intro h; cases h
      · intro h
        have := h ⟨key, childFormat⟩ (List.mem_cons_self _ _)
        rw [hfc] at this; cases this


theorem validOptional_str (v : JSValue) :
    validOptional v (.str "?") = (isNullish v || (getType v == "string")) := by
  rw [validOptional]
  cases hv : isNullish v <;> simp [hv]

theorem validOptional_neg_one (v : JSValue) :
    validOptional v (.num (.int (-1))) = (isNullish v || (getType v == "number")) := by
  rw [validOptional]
  cases hv : isNullish v <;> simp [hv]
  all_goals exact fun h => nomatch h

/-- C1: the spec says an empty-array format always raises the fatal
configuration error and never returns a boolean, for every value. The
code only throws when the value is a non-empty array: for a non-array
value (here the number 0) `validArray` returns false before it ever
looks at the empty template. -/
theorem C1_counterexample :
    validType (.num (.int 0)) (.arr []) false = .ok false := rfl

/-- C1 (amended): with the empty-array format, `validType` raises the
fatal configuration error exactly when the value is a non-empty array;
a nullish value, a non-array value or an empty array all return false. -/
theorem C1_empty_array_format (v : JSValue) (strict : Bool) :
    validType v (.arr []) strict =
      match v with
      | .arr (_ :: _) => .error emptyArrayFormatMsg
      | _ => .ok false := by
  cases v with
  | arr xs => cases xs <;> rfl
  | undefined => rfl
  | null => rfl
  | bool b => rfl
  | num n => rfl
  | str s => rfl
  | obj f => rfl
  | func f => rfl

/-- C2: for each of the four basic constructor descriptors and every
non-nullish value, validation succeeds exactly when the runtime kind of
the value equals the lowercased constructor name. -/
theorem C2_basic_descriptor (name : String) (v : JSValue) (strict : Bool)
    (_hname : name ∈ ["String", "Number", "Boolean", "Object"])
    (hv : isNullish v = false) :
    validType v (.func name) strict = .ok true ↔ getType v = strLower name := by
  rw [validType_eq]
  simp [show isOptionalDescriptor (.func name) = false from rfl, hv,
    validBaseType]

/-- C2 witness: validate(1, String) is false and validate("a", String)
is true. -/
theorem C2_witness :
    validType (.num (.int 1)) (.func "String") false ≠ .ok true
      ∧ validType (.str "a") (.func "String") false = .ok true := by
  constructor
  · intro h
    have := (C2_basic_descriptor "String" (.num (.int 1)) false
      (by decide) rfl).mp h
    exact absurd this (by decide)
  · exact (C2_basic_descriptor "String" (.str "a") false
      (by decide) rfl).mpr (by decide)

/-- C4: the optional-string sentinel accepts exactly absence or a string,
the optional-number sentinel exactly absence or a number, and every
non-optional-scalar format rejects null and undefined. -/
theorem C4_optional_scalar :
    (∀ (v : JSValue) (strict : Bool),
        validType v (.str "?") strict
          = .ok (isNullish v || (getType v == "string")))
    ∧ (∀ (v : JSValue) (strict : Bool),
        validType v (.num (.int (-1))) strict
          = .ok (isNullish v || (getType v == "number")))
    ∧ (∀ (F : JSValue) (strict : Bool), isOptionalDescriptor F = false →
        validType .null F strict = .ok false
          ∧ validType .undefined F strict = .ok false) := by
  refine ⟨?_, ?_, ?_⟩
  · intro v strict
    rw [validType_eq]
    simp [show isOptionalDescriptor (.str "?") = true from rfl,
      validOptional_str]
  · intro v strict
    rw [validType_eq]
    simp [show isOptionalDescriptor (.num (.int (-1))) = true from rfl,
      validOptional_neg_one]
  · intro F strict hF
    constructor <;> (rw [validType_eq]; simp [hF, isNullish])

/-- C4 witness: a concrete non-optional format rejecting null. -/
theorem C4_witness :
    isOptionalDescriptor (.func "String") = false
      ∧ validType .null (.func "String") false = .ok false :=
  ⟨rfl, (C4_optional_scalar.2.2 (.func "String") false rfl).1⟩

theorem validType_falsy_format (E v : JSValue) (strict : Bool)
    (hs : isOptionalDescriptor E = false) (hf : jsFalsy E = true) :
    validType v E strict = .ok false := by
  rw [validType_eq, hs]
  cases E with
  | undefined => simp [isNullish]
  | null => simp [isNullish]
  | bool b => simp [isNullish]
  | num n => simp [isNullish]
  | str s => simp [isNullish]
  | arr xs => simp [jsFalsy] at hf
  | obj f => simp [jsFalsy] at hf
  | func f => simp [jsFalsy] at hf

/-- C5: an array descriptor with a non-sentinel template accepts exactly
the non-empty arrays whose every element validates recursively against
the template with the same strict flag. -/
theorem C5_array_descriptor (E v : JSValue) (strict : Bool)
    (hE : isOptionalDescriptor E = false) :
    validType v (.arr [E]) strict = .ok true ↔
      ∃ items, v = .arr items ∧ items ≠ [] ∧
        ∀ x ∈ items, validType x E strict = .ok true := by
  rw [validType_eq]
  rw [show isOptionalDescriptor (.arr [E]) = false from rfl]
  rw [if_neg (by simp)]
  cases v with
  | undefined => simp [isNullish]
  | null => simp [isNullish]
  | bool b => simp [isNullish, validArray, validArrayF]
  | num n => simp [isNullish, validArray, validArrayF]
  | str s => simp [isNullish, validArray, validArrayF]
  | obj f => simp [isNullish, validArray, validArrayF]
  | func f => simp [isNullish, validArray, validArrayF]
  | arr items =>
    rw [if_neg (by simp [isNullish])]
    cases items with
    | nil => simp [validArray, validArrayF]
    | cons x rest =>
      by_cases hf : jsFalsy E = true
      · constructor
        · intro h
          simp [validArray, validArrayF, hf] at h
        · rintro ⟨its, heq, hne, hall⟩
          obtain rfl : its = x :: rest := by
            injection heq with h2; exact h2.symm
          have hx := hall x (List.mem_cons_self x rest)
          rw [validType_falsy_format E x strict hE hf] at hx
          exact absurd hx (by simp)
      · have hf' : jsFalsy E = false := by
          revert hf; cases jsFalsy E <;> simp
        show validArray (.arr (x :: rest)) [E] strict = .ok true ↔ _
        simp only [validArray, validArrayF, hf', Bool.false_eq_true, if_false]
        rw [allItemsM_eq_ok_true_iff]
        constructor
        · intro h
          exact ⟨x :: rest, rfl, by simp, h⟩
        · rintro ⟨its, heq, hne, hall⟩
          obtain rfl : its = x :: rest := by
            injection heq with h2; exact h2.symm
          exact hall

/-- C5 witness: with the String template, the empty array fails, a
singleton string array passes, a mixed array fails. -/
theorem C5_witness :
    validType (.arr [.str "a"]) (.arr [.func "String"]) false = .ok true
      ∧ validType (.arr []) (.arr [.func "String"]) false ≠ .ok true
      ∧ validType (.arr [.str "a", .num (.int 1)]) (.arr [.func "String"]) false
          ≠ .ok true := by
  refine ⟨?_, ?_, ?_⟩
  · exact (C5_array_descriptor (.func "String") (.arr [.str "a"]) false
      rfl).mpr ⟨[.str "a"], rfl, by simp, by
        intro x hx
        rw [List.mem_singleton] at hx
        subst hx
        decide⟩
  · intro h
    obtain ⟨its, heq, hne, _⟩ :=
      (C5_array_descriptor (.func "String") (.arr []) false rfl).mp h
    injection heq with h2
    exact hne h2.symm
  · intro h
    have hall :=
      ((C5_array_descriptor (.func "String")
        (.arr [.str "a", .num (.int 1)]) false rfl).mp h)
    obtain ⟨its, heq, hne, hall⟩ := hall
    obtain rfl : its = [.str "a", .num (.int 1)] := by
      injection heq with h2; exact h2.symm
    have := hall (.num (.int 1)) (by simp)
    exact absurd this (by decide)

/-- C6: the spec says an optional-array descriptor passes on a missing
or null value. At the top level of `validType` the sentinel-template
array is treated as an ordinary array descriptor, so a null value is
rejected there (the optional-array semantics only applies where the
descriptor appears as an object field). -/
theorem C6_counterexample :
    validType .null (.arr [.str "?"]) false = .ok false := rfl

/-- C6 (amended): the optional-array semantics holds at the object-field
level: `validOptionalArrayField` passes a nullish value, and otherwise
passes exactly the non-empty arrays whose elements all have the scalar
kind of the sentinel, so a present empty array, a null element and a
kind-mismatched element all fail; and inside an object descriptor a
field with a sentinel-template array descriptor is checked by exactly
this function. -/
theorem C6_optional_array_field :
    (∀ v : JSValue, validOptionalArrayField v (.str "?") = true ↔
        (isNullish v = true ∨ ∃ items, v = .arr items ∧ items ≠ [] ∧
          ∀ x ∈ items, getType x = "string"))
    ∧ (∀ v : JSValue, validOptionalArrayField v (.num (.int (-1))) = true ↔
        (isNullish v = true ∨ ∃ items, v = .arr items ∧ items ≠ [] ∧
          ∀ x ∈ items, getType x = "number"))
    ∧ (∀ (key : String) (fv : JSValue) (strict : Bool) (s : JSValue),
        isOptionalDescriptor s = true →
        validType (.obj [(key, fv)]) (.obj [(key, .arr [s])]) strict
          = .ok (validOptionalArrayField fv s)) := by
  refine ⟨?_, ?_, ?_⟩
  · intro v
    cases v with
    | undefined => simp [validOptionalArrayField, isNullish]
    | null => simp [validOptionalArrayField, isNullish]
    | bool b => simp [validOptionalArrayField, isNullish]
    | num n => simp [validOptionalArrayField, isNullish]
    | str s => simp [validOptionalArrayField, isNullish]
    | obj f => simp [validOptionalArrayField, isNullish]
    | func f => simp [validOptionalArrayField, isNullish]
    | arr items =>
      cases items with
      | nil => simp [validOptionalArrayField, isNullish]
      | cons x rest =>
        rw [show validOptionalArrayField (.arr (x :: rest)) (.str "?")
            = (x :: rest).all (fun item => getType item == "string") from rfl]
        rw [List.all_eq_true]
        constructor
        · intro h
          refine Or.inr ⟨x :: rest, rfl, by simp, ?_⟩
          intro y hy
          simpa using h y hy
        · rintro (h | ⟨its, heq, hne, hall⟩)
          · simp [isNullish] at h
          · obtain rfl : its = x :: rest := by
              injection heq with h2; exact h2.symm
            intro y hy
            simpa using hall y hy
  · intro v
    cases v with
    | undefined => simp [validOptionalArrayField, isNullish]
    | null => simp [validOptionalArrayField, isNullish]
    | bool b => simp [validOptionalArrayField, isNullish]
    | num n => simp [validOptionalArrayField, isNullish]
    | str s => simp [validOptionalArrayField, isNullish]
    | obj f => simp [validOptionalArrayField, isNullish]
    | func f => simp [validOptionalArrayField, isNullish]
    | arr items =>
      cases items with
      | nil => simp [validOptionalArrayField, isNullish]
      | cons x rest =>
        rw [show validOptionalArrayField (.arr (x :: rest)) (.num (.int (-1)))
            = (x :: rest).all (fun item => getType item == "number") from rfl]
        rw [List.all_eq_true]
        constructor
        · intro h
          refine Or.inr ⟨x :: rest, rfl, by simp, ?_⟩
          intro y hy
          simpa using h y hy
        · rintro (h | ⟨its, heq, hne, hall⟩)
          · simp [isNullish] at h
          · obtain rfl : its = x :: rest := by
              injection heq with h2; exact h2.symm
            intro y hy
            simpa using hall y hy
  · intro key fv strict s hs
    rw [validType_eq]
    rw [show isOptionalDescriptor (.obj [(key, .arr [s])]) = false from rfl]
    rw [if_neg (by simp)]
    rw [if_neg (by simp [isNullish])]
    show validObject (.obj [(key, fv)]) [(key, .arr [s])] strict
      = .ok (validOptionalArrayField fv s)
    rw [validObject, validObjectF]
    have hall : [(key, fv)].all
        (fun kv => [(key, JSValue.arr [s])].any (fun f => f.1 == kv.1))
        = true := by simp
    rw [hall]
    simp only [Bool.not_true, Bool.and_false, Bool.false_eq_true, if_false]
    rw [objFieldsM]
    rw [show fieldCheck (fun v f s => validType v f s) [(key, fv)] strict key
        (.arr [s]) = .ok (validOptionalArrayField fv s) from ?_]
    · cases hb : validOptionalArrayField fv s <;> simp [objFieldsM]
    · rw [fieldCheck]
      have hlook : jsLookup [(key, fv)] key = fv := by
        simp [jsLookup, List.find?]
      rw [hlook]
      rw [show jsFalsy (.arr [s]) = false from rfl]
      rw [show isOptionalArrayFieldFormat (.arr [s]) = true from by
        simp [isOptionalArrayFieldFormat, hs]]
      simp [jsHead]

/-- C6 witness: a null optional-array field passes while a present empty
array fails, through the object-field dispatch of the amended theorem. -/
theorem C6_witness :
    validType (.obj [("tags", .null)]) (.obj [("tags", .arr [.str "?"])]) false
        = .ok true
      ∧ validType (.obj [("tags", .arr [])])
          (.obj [("tags", .arr [.str "?"])]) false = .ok false := by
  constructor
  · rw [C6_optional_array_field.2.2 "tags" .null false (.str "?") rfl]
    rfl
  · rw [C6_optional_array_field.2.2 "tags" (.arr []) false (.str "?") rfl]
    rfl

theorem validType_of_opt (v D : JSValue) (strict : Bool)
    (h : isOptionalDescriptor D = true) :
    validType v D strict = .ok (validOptional v D) := by
  rw [validType_eq, h, if_pos rfl]

theorem validType_of_nullish (v D : JSValue) (strict : Bool)
    (hD : isOptionalDescriptor D = false) (hv : isNullish v = true) :
    validType v D strict = .ok false := by
  rw [validType_eq, hD, if_neg (by simp), hv, if_pos rfl]

theorem validType_func_eq (v : JSValue) (nm : String) (strict : Bool)
    (hv : isNullish v = false) :
    validType v (.func nm) strict = .ok (validBaseType v nm) := by
  rw [validType_eq]
  rw [show isOptionalDescriptor (.func nm) = false from rfl]
  rw [if_neg (by simp), hv, if_neg (by simp)]

theorem validType_arr_eq (v : JSValue) (xs : List JSValue) (strict : Bool)
    (hv : isNullish v = false) :
    validType v (.arr xs) strict = validArray v xs strict := by
  rw [validType_eq]
  rw [show isOptionalDescriptor (.arr xs) = false from rfl]
  rw [if_neg (by simp), hv, if_neg (by simp)]

theorem validType_obj_eq (v : JSValue) (fs : List (String × JSValue))
    (strict : Bool) (hv : isNullish v = false) :
    validType v (.obj fs) strict = validObject v fs strict := by
  rw [validType_eq]
  rw [show isOptionalDescriptor (.obj fs) = false from rfl]
  rw [if_neg (by simp), hv, if_neg (by simp)]

theorem validType_strict_mono_aux :
    ∀ (n : Nat) (D : JSValue), jsSize D ≤ n →
      ∀ v, validType v D true = .ok true → validType v D false = .ok true := by
  intro n
  induction n with
  | zero =>
    intro D hD
    have := JSValue.one_le_jsSize D
    omega
  | succ k ih =>
    intro D hD v h
    by_cases hopt : isOptionalDescriptor D = true
    · rw [validType_of_opt v D true hopt] at h
      rw [validType_of_opt v D false hopt]
      exact h
    · have hopt' : isOptionalDescriptor D = false := by
        revert hopt; cases isOptionalDescriptor D <;> simp
      by_cases hnull : isNullish v = true
      · rw [validType_of_nullish v D true hopt' hnull] at h
        cases h
      · have hnull' : isNullish v = false := by
          revert hnull; cases isNullish v <;> simp
        cases D with
        | undefined => rw [validType_eq] at h; simp [hopt', hnull'] at h
        | null => rw [validType_eq] at h; simp [hopt', hnull'] at h
        | bool b => rw [validType_eq] at h; simp [hopt', hnull'] at h
        | num m => rw [validType_eq] at h; simp [hopt', hnull'] at h
        | str s => rw [validType_eq] at h; simp [hopt', hnull'] at h
        | func nm =>
          rw [validType_func_eq v nm true hnull'] at h
          rw [validType_func_eq v nm false hnull']
          exact h
        | arr xs =>
          rw [validType_arr_eq v xs true hnull'] at h
          rw [validType_arr_eq v xs false hnull']
          cases v with
          | undefined => simp [validArray, validArrayF] at h
          | null => simp [validArray, validArrayF] at h
          | bool b => simp [validArray, validArrayF] at h
          | num m => simp [validArray, validArrayF] at h
          | str s => simp [validArray, validArrayF] at h
          | obj f => simp [validArray, validArrayF] at h
          | func f => simp [validArray, validArrayF] at h
          | arr items =>
            cases items with
            | nil => simp [validArray, validArrayF] at h
            | cons x rest =>
              cases xs with
              | nil => simp [validArray, validArrayF] at h
              | cons e efs =>
                by_cases hf : jsFalsy e = true
                · rw [show validArray (.arr (x :: rest)) (e :: efs) true
                      = .error emptyArrayFormatMsg from by
                      simp [validArray, validArrayF, hf]] at h
                  cases h
                · have hf2 : jsFalsy e = false := by
                    revert hf; cases jsFalsy e <;> simp
                  rw [show validArray (.arr (x :: rest)) (e :: efs) true
                      = allItemsM (fun item => validType item e true)
                          (x :: rest) from by
                      simp [validArray, validArrayF, hf2]] at h
                  rw [show validArray (.arr (x :: rest)) (e :: efs) false
                      = allItemsM (fun item => validType item e false)
                          (x :: rest) from by
                      simp [validArray, validArrayF, hf2]]
                  rw [allItemsM_eq_ok_true_iff] at h ⊢
                  intro y hy
                  refine ih e ?_ y (h y hy)
                  simp only [jsSize, jsSizeL] at hD
                  have := JSValue.one_le_jsSize e
                  omega
        | obj fields =>
          rw [validType_obj_eq v fields true hnull'] at h
          rw [validType_obj_eq v fields false hnull']
          cases v with
          | undefined => simp [validObject, validObjectF] at h
          | null => simp [validObject, validObjectF] at h
          | bool b => simp [validObject, validObjectF] at h
          | num m => simp [validObject, validObjectF] at h
          | str s => simp [validObject, validObjectF] at h
          | arr a => simp [validObject, validObjectF] at h
          | func f => simp [validObject, validObjectF] at h
          | obj objFields =>
            simp only [validObject, validObjectF] at h ⊢
            by_cases hall : objFields.all
                (fun kv => fields.any (fun f => f.1 == kv.1)) = true
            · rw [hall] at h
              simp only [Bool.not_true, Bool.and_false, Bool.false_eq_true,
                if_false] at h
              simp only [Bool.false_and, Bool.false_eq_true, if_false]
              rw [objFieldsM_eq_ok_true_iff] at h ⊢
              intro kv hkv
              have hfc := h kv hkv
              rw [fieldCheck] at hfc ⊢
              by_cases hcf : jsFalsy kv.2 = true
              · rw [if_pos hcf] at hfc
                cases hfc
              · rw [if_neg hcf] at hfc ⊢
                by_cases hoaf : isOptionalArrayFieldFormat kv.2 = true
                · rw [if_pos hoaf] at hfc ⊢
                  exact hfc
                · rw [if_neg hoaf] at hfc ⊢
                  by_cases hod : isOptionalDescriptor kv.2 = true
                  · rw [if_pos hod] at hfc ⊢
                    exact hfc
                  · rw [if_neg hod] at hfc ⊢
                    by_cases hnv : isNullish (jsLookup objFields kv.1) = true
                    · rw [if_pos hnv] at hfc
                      cases hfc
                    · rw [if_neg hnv] at hfc ⊢
                      refine ih kv.2 ?_ _ hfc
                      have hlt := jsSize_lt_of_mem_obj hkv
                      simp only [jsSize] at hlt hD
                      omega
            · have hall2 : objFields.all
                  (fun kv => fields.any (fun f => f.1 == kv.1)) = false := by
                revert hall
                cases objFields.all (fun kv => fields.any (fun f => f.1 == kv.1))
                  <;> simp
              rw [hall2] at h
              simp only [Bool.not_false, Bool.and_true, if_pos] at h
              cases h

/-- C7: strict-mode validation implies non-strict validation for every
format descriptor (so in particular for object descriptors), and the
converse fails: an object with an undeclared extra key passes non-strict
validation but fails strict validation. -/
theorem C7_strict_superset :
    (∀ (D v : JSValue), validType v D true = .ok true →
        validType v D false = .ok true)
    ∧ ∃ (D v : JSValue), validType v D false = .ok true
        ∧ validType v D true ≠ .ok true := by
  constructor
  · intro D v h
    exact validType_strict_mono_aux (jsSize D) D (Nat.le_refl _) v h
  · refine ⟨.obj [("a", .func "String")],
      .obj [("a", .str "x"), ("b", .str "y")], by decide, by decide⟩

/-- C7 witness: a concrete strict pass carried over to non-strict mode
by the theorem. -/
theorem C7_witness :
    validType (.obj [("a", .str "x")]) (.obj [("a", .func "String")]) false
      = .ok true :=
  C7_strict_superset.1 (.obj [("a", .func "String")])
    (.obj [("a", .str "x")]) (by decide)

/-- C8: the query normalizer fails on any non-object input (arrays and
primitives included) and on any present non-string value; otherwise it
keeps exactly the string-valued entries, in order, omitting nullish ones
and copying the strings through unchanged. -/
theorem C8_normalize_query (q : JSValue) :
    normalizeGetQuery q =
      match q with
      | .obj entries =>
        if entries.all (fun kv => isNullish kv.2 || (getType kv.2 == "string"))
        then some (entries.filterMap (fun kv =>
          match kv.2 with
          | .str s => some (kv.1, s)
          | _ => none))
        else none
      | _ => none := by
  cases q with
  | undefined => rfl
  | null => rfl
  | bool b => rfl
  | num n => rfl
  | str s => rfl
  | arr xs => rfl
  | func f => rfl
  | obj entries =>
    show normalizeGetQueryEntries entries = _
    induction entries with
    | nil => rfl
    | cons kv rest ih =>
      obtain ⟨k, v⟩ := kv
      cases v with
      | undefined => exact ih
      | null => exact ih
      | bool b => rfl
      | num n => rfl
      | arr xs => rfl
      | obj f => rfl
      | func f => rfl
      | str s =>
        show (normalizeGetQueryEntries rest).map (fun out => (k, s) :: out) = _
        rw [ih]
        show Option.map (fun out => (k, s) :: out)
            (if (rest.all fun kv => isNullish kv.2 || (getType kv.2 == "string"))
                = true
             then some (List.filterMap (fun kv =>
               match kv.2 with
               | JSValue.str t => some (kv.1, t)
               | _ => none) rest)
             else none)
          = (if (((k, JSValue.str s) :: rest).all fun kv =>
                isNullish kv.2 || (getType kv.2 == "string")) = true
             then some (List.filterMap (fun kv =>
               match kv.2 with
               | JSValue.str t => some (kv.1, t)
               | _ => none) ((k, JSValue.str s) :: rest))
             else none)
        cases hall : rest.all
            (fun kv => isNullish kv.2 || (getType kv.2 == "string")) with
        | true =>
          rw [show (((k, JSValue.str s) :: rest).all fun kv =>
                isNullish kv.2 || (getType kv.2 == "string"))
              = (rest.all fun kv =>
                isNullish kv.2 || (getType kv.2 == "string")) from by
            rw [List.all_cons]; rfl]
          rw [hall]
          rfl
        | false =>
          rw [show (((k, JSValue.str s) :: rest).all fun kv =>
                isNullish kv.2 || (getType kv.2 == "string"))
              = (rest.all fun kv =>
                isNullish kv.2 || (getType kv.2 == "string")) from by
            rw [List.all_cons]; rfl]
          rw [hall]
          rfl

/-- C10: for an endpoint header configured as Number or Boolean, once a
string header value is present, the coercion always produces a value of
the declared runtime kind, so the header type error rejection is
unreachable: non-numeric strings coerce to NaN which still has kind
number, and the Boolean coercion always yields a boolean. -/
theorem C10_header_coercion (s : String) (fmt : JSValue)
    (hfmt : fmt = .func "Number" ∨ fmt = .func "Boolean") :
    validType (coerceHeader (.str s) fmt) fmt false = .ok true
      ∧ ∀ (key : String) (headers : List (String × JSValue)),
          jsLookup headers (strLower key) = .str s →
          checkHeaders headers [(key, fmt)] = none := by
  have hv : validType (coerceHeader (.str s) fmt) fmt false = .ok true := by
    rcases hfmt with rfl | rfl <;> rfl
  refine ⟨hv, ?_⟩
  intro key headers hlook
  rw [show checkHeaders headers [(key, fmt)]
      = (let raw := jsLookup headers (strLower key)
         let value : JSValue :=
           match raw with
           | .arr (x :: _) => x
           | .arr [] => .undefined
           | v => v
         if isNullish value
         then some (.reply .null 0 400 (msgMissingHeader key))
         else
           match validType (coerceHeader value fmt) fmt false with
           | .error e => some (.nextError e)
           | .ok true => checkHeaders headers []
           | .ok false => some (.reply .null 0 400 (msgHeaderType key)))
      from rfl]
  rw [hlook]
  show (if isNullish (.str s)
      then some (PipelineResult.reply .null 0 400 (msgMissingHeader key))
      else
        match validType (coerceHeader (.str s) fmt) fmt false with
        | .error e => some (.nextError e)
        | .ok true => checkHeaders headers []
        | .ok false => some (.reply .null 0 400 (msgHeaderType key)))
    = none
  rw [if_neg (by simp [isNullish])]
  rw [hv]
  rfl

/-- C10 witness: the non-numeric header string "abc" passes a Number
header check (it coerces to NaN, which has runtime kind number). -/
theorem C10_witness :
    validType (coerceHeader (.str "abc") (.func "Number")) (.func "Number")
        false = .ok true
      ∧ checkHeaders [("x-age", .str "abc")] [("X-Age", .func "Number")]
          = none :=
  ⟨(C10_header_coercion "abc" (.func "Number") (Or.inl rfl)).1,
   (C10_header_coercion "abc" (.func "Number") (Or.inl rfl)).2
     "X-Age" [("x-age", .str "abc")] rfl⟩

/-- C9: the spec says reply defaults status to 1 when data is present
and that every response body has the shape with a `code` field. The code
sends `code` as the HTTP status and the body only carries msg, status
and data; and the status default is the truthiness of data, so the
present number 0 still yields status 0. -/
theorem C9_counterexample :
    getField (quickSendReply (.str "x") none none none).body "code" = .undefined
      ∧ getField (quickSendReply (.num (.int 0)) none none none).body "status"
          = .num (.int 0) :=
  ⟨rfl, rfl⟩

/-- C9 (amended): `reply` defaults `status` to the truthiness of `data`
(and `return` forces status 0 whenever data is nullish), defaults `code`
to 200 and uses it as the HTTP status, not as a body field; every body
is the object with exactly the fields msg (the given string), status
(always 0 or 1) and data (a JSON string or null). -/
theorem C9_reply_amended (data : JSValue) (status code : Option Nat)
    (msg : Option String) :
    (quickSendReply data status code msg).httpStatus = code.getD 200
    ∧ getField (quickSendReply data status code msg).body "code" = .undefined
    ∧ ∃ (st : Int) (d : JSValue),
        (quickSendReply data status code msg).body
          = .obj [("msg", .str (msg.getD "")),
                  ("status", .num (.int st)), ("data", d)]
        ∧ (st = 0 ∨ st = 1)
        ∧ (d = .null ∨ ∃ t, d = .str t)
        ∧ (isNullish data = true → st = 0)
        ∧ (status = none → jsFalsy data = false → st = 1)
        ∧ (status = none → jsFalsy data = true → st = 0) := by
  refine ⟨rfl, rfl,
    (if (if isNullish data then 0
         else (match status with
               | some s => s
               | none => if jsFalsy data then 0 else 1)) != 0
     then 1 else 0 : Int),
    (match (match data with
            | .str t => some t
            | _ => jsStringify data) with
     | some t => JSValue.str t
     | none => JSValue.null),
    ?_, ?_, ?_, ?_, ?_, ?_⟩
  · rfl
  · cases h : (if isNullish data then 0
        else (match status with
              | some s => s
              | none => if jsFalsy data then 0 else 1)) != 0 <;> simp [h]
  · cases h : (match data with
        | .str t => some t
        | _ => jsStringify data) with
    | some t => exact Or.inr ⟨t, rfl⟩
    | none => exact Or.inl rfl
  · intro hn
    rw [hn]
    rfl
  · intro hst hf
    subst hst
    rw [hf]
    have hn : isNullish data = false := by
      revert hf
      cases data <;> simp [isNullish, jsFalsy]
    rw [hn]
    rfl
  · intro hst hf
    subst hst
    rw [hf]
    cases hn : isNullish data <;> rfl

/-- C9 witness: a reply with explicit status and code, the code used as
HTTP status and no code field in the body. -/
theorem C9_witness :
    (quickSendReply (.str "x") (some 5) (some 404) (some "oops")).httpStatus
        = 404
      ∧ getField (quickSendReply (.str "x") (some 5) (some 404)
          (some "oops")).body "code" = .undefined :=
  ⟨(C9_reply_amended (.str "x") (some 5) (some 404) (some "oops")).1,
   (C9_reply_amended (.str "x") (some 5) (some 404) (some "oops")).2.1⟩

theorem isGetOnlyStringFormat_false_of_bad
    {fields : List (String × JSValue)} {k : String} {bad : JSValue}
    (hmem : (k, bad) ∈ fields)
    (h1 : bad ≠ .func "String") (h2 : bad ≠ .str "?") :
    isGetOnlyStringFormat (.obj fields) = false := by
  cases hall : isGetOnlyStringFormat (.obj fields)
  · rfl
  · exfalso
    have hfa : fields.all (fun kv => isGetAllowedValue kv.2) = true := hall
    rw [List.all_eq_true] at hfa
    have hp := hfa (k, bad) hmem
    cases bad with
    | func n =>
      have hn : n = "String" := by
        have : (n == "String") = true := hp
        simpa using this
      exact h1 (by rw [hn])
    | str t =>
      have ht : t = "?" := by
        have : (t == "?") = true := hp
        simpa using this
      exact h2 (by rw [ht])
    | undefined => simp [isGetAllowedValue] at hp
    | null => simp [isGetAllowedValue] at hp
    | bool b => simp [isGetAllowedValue] at hp
    | num m => simp [isGetAllowedValue] at hp
    | arr xs => simp [isGetAllowedValue] at hp
    | obj f => simp [isGetAllowedValue] at hp

theorem contentTypeCheck_get (cct : Option String)
    (headers : List (String × JSValue)) (query body : JSValue) :
    contentTypeCheck cct ⟨"GET", headers, query, body⟩ = none := by
  cases cct with
  | none => rfl
  | some ct =>
    show (if (ct == "") = true then none else _) = none
    split
    · rfl
    · rfl

theorem tokenCheck_off (vt : JSValue → List String → String → TokenResult)
    (tokenOpen : Bool) (thp tpwd : String) (cfg : MasConfig)
    (req : MasRequest) (htk : cfg.token = false) :
    tokenCheck vt tokenOpen thp tpwd (some cfg) req = none := by
  show (if (tokenOpen && cfg.token) = true then _ else none) = none
  rw [htk]
  cases tokenOpen <;> rfl

theorem formatCheck_get_misconfig (fmt : JSValue) (strict : Bool)
    (req : MasRequest) (hshape : isGetOnlyStringFormat fmt = false)
    (hfalsy : jsFalsy fmt = false) (hget : isGetRequest req = true) :
    formatCheck (some fmt) strict req = .reply .null 0 500 msgGetConfig := by
  show (if jsFalsy fmt = true then PipelineResult.handlerRun
        else if isGetRequest req = true
          then (if (!isGetOnlyStringFormat fmt) = true
                then PipelineResult.reply .null 0 500 msgGetConfig
                else _)
          else _)
      = PipelineResult.reply .null 0 500 msgGetConfig
  rw [hfalsy, hshape, hget]
  rw [if_neg (by simp)]
  rw [if_pos rfl]
  rfl

/-- C3: a GET request to an endpoint (handler present, GET allowed by its
method class, no header config, token check off) whose requestFormat is
an object with any field that is neither the String constructor nor the
optional-string sentinel is rejected with the 500 interface
misconfiguration reply, whatever the query, body, headers and remaining
config are, and the handler is not invoked. -/
theorem C3_get_misconfigured
    (vt : JSValue → List String → String → TokenResult)
    (filePath : String) (cm cct : Option String)
    (cperm : Option (List String)) (cst : Bool)
    (tokenOpen : Bool) (thp tpwd : String)
    (headers : List (String × JSValue)) (query body : JSValue)
    (fields : List (String × JSValue)) (k : String) (bad : JSValue)
    (hm : cm = none ∨ cm = some "all" ∨ cm = some "get")
    (hmem : (k, bad) ∈ fields)
    (h1 : bad ≠ .func "String") (h2 : bad ≠ .str "?") :
    createApiHandler vt filePath
        ⟨some ⟨cm, cct, none, false, cperm, some (.obj fields), cst⟩, true⟩
        tokenOpen thp tpwd ⟨"GET", headers, query, body⟩
      = .reply .null 0 500 msgGetConfig
    ∧ createApiHandler vt filePath
        ⟨some ⟨cm, cct, none, false, cperm, some (.obj fields), cst⟩, true⟩
        tokenOpen thp tpwd ⟨"GET", headers, query, body⟩
      ≠ .handlerRun := by
  have hbad := isGetOnlyStringFormat_false_of_bad hmem h1 h2
  have heq : createApiHandler vt filePath
      ⟨some ⟨cm, cct, none, false, cperm, some (.obj fields), cst⟩, true⟩
      tokenOpen thp tpwd ⟨"GET", headers, query, body⟩
      = .reply .null 0 500 msgGetConfig := by
    have hrest :
        (match contentTypeCheck cct ⟨"GET", headers, query, body⟩ with
         | some r => r
         | none =>
           match tokenCheck vt tokenOpen thp tpwd
               (some ⟨cm, cct, none, false, cperm, some (.obj fields), cst⟩)
               ⟨"GET", headers, query, body⟩ with
           | some r => r
           | none =>
             formatCheck (some (.obj fields)) cst
               ⟨"GET", headers, query, body⟩)
        = PipelineResult.reply .null 0 500 msgGetConfig := by
      rw [contentTypeCheck_get]
      rw [tokenCheck_off vt tokenOpen thp tpwd _ _ rfl]
      exact formatCheck_get_misconfig (.obj fields) cst
        ⟨"GET", headers, query, body⟩ hbad rfl rfl
    rcases hm with rfl | rfl | rfl
    · exact hrest
    · exact hrest
    · exact hrest
  refine ⟨heq, ?_⟩
  rw [heq]
  exact fun h => nomatch h

/-- C3 witness: the repository test scenario, a GET endpoint declaring
`age: Number` is rejected 500 no matter the query. -/
theorem C3_witness :
    createApiHandler (fun _ _ _ => ⟨1, ""⟩) "/x/get.ts"
        ⟨some ⟨some "get", none, none, false, none,
          some (.obj [("age", .func "Number")]), false⟩, true⟩
        false "token" "x"
        ⟨"GET", [], .obj [("age", .str "18")], .obj []⟩
      = .reply .null 0 500 msgGetConfig :=
  (C3_get_misconfigured (fun _ _ _ => ⟨1, ""⟩) "/x/get.ts" (some "get") none
    none false false "token" "x" [] (.obj [("age", .str "18")]) (.obj [])
    [("age", .func "Number")] "age" (.func "Number")
    (Or.inr (Or.inr rfl)) (List.mem_singleton.mpr rfl)
    (by simp) (by simp)).1
